import Mathlib

/-!
Verification of the word-boundary detection and in-place word replacement
core of the marktext spell-correction subsystem.

The embedding is a shallow one: the JavaScript functions
`SpellChecker.extractWord`, `offsetToWordCursor`, `validateLineCursor`
(renderer spellchecker module), `ContentState.prototype.replaceWordInline`
and `ContentState.prototype._replaceCurrentWordInlineUnsafe`
(muya `contentState/core.js`) are translated into executable Lean
functions.  Text buffers are `List Char` (JavaScript strings at the
character level), JavaScript `undefined`/`null` is `Option`, a thrown
exception is `Except.error`/`Option.none`, and mutation of the document
state is explicit state passing: a successful replacement returns the new
text of the owning block, the updated line cursor, the updated document
cursor and the notification flags instead of mutating them in place.

The two regexes of the scanner,

  WORD_SEPARATORS = (?:[`~!@#$%^&*()-=+[{\]}\\|;:'",\.<>\/?\s])   (global)
  WORD_DEFINITION = (?:-?\d*\.\d\w*)|(?:[^`~!@#$%^&*()-=+[{\]}\\|;:'",\.<>\/?\s]+)

are embedded as explicit character-class predicates and scanning
functions.  Note that in both character classes the unescaped `-` that
stands between `)` and `=` forms, by ECMAScript ClassRanges semantics, the
code-point range U+0029 .. U+003D — which contains the decimal digits.
The comment above the regexes in the source cites the original vscode
regex in which this `-` is escaped (`\-`, a literal dash); the escape was
dropped (`eslint-disable no-useless-escape`), silently turning the
literal into a range.  The embedding reproduces the code as written.
-/

/-- The ECMAScript `\s` character class: whitespace and line terminators. -/
def isJsSpaceChar (c : Char) : Bool :=
  let n := c.toNat
  (9 ≤ n && n ≤ 13) || n == 32 || n == 160 || n == 5760 ||
  (8192 ≤ n && n ≤ 8202) || n == 8232 || n == 8233 || n == 8239 ||
  n == 8287 || n == 12288 || n == 65279

/-- Character class of `WORD_SEPARATORS` (also the negated class of the
second alternative of `WORD_DEFINITION`): the listed punctuation atoms,
the range `)`..`=` formed by the unescaped dash (U+0029 .. U+003D, which
contains the digits), and `\s`.  `Char.ofNat` is used for the backtick
(96), apostrophe (39), double quote (34), backslash (92) and braces
(123/125). -/
def isWordSeparatorChar (c : Char) : Bool :=
  c == Char.ofNat 96 || c == '~' || c == '!' || c == '@' || c == '#' ||
  c == '$' || c == '%' || c == '^' || c == '&' || c == '*' || c == '(' ||
  (41 ≤ c.toNat && c.toNat ≤ 61) ||
  c == '+' || c == '[' || c == Char.ofNat 123 || c == ']' ||
  c == Char.ofNat 125 || c == Char.ofNat 92 || c == '|' || c == ';' ||
  c == ':' || c == Char.ofNat 39 || c == Char.ofNat 34 || c == ',' ||
  c == '.' || c == '<' || c == '>' || c == '/' || c == '?' ||
  isJsSpaceChar c

/-- The ECMAScript `\d` class. -/
def isDigitChar (c : Char) : Bool :=
  48 ≤ c.toNat && c.toNat ≤ 57

/-- The ECMAScript `\w` class: `[A-Za-z0-9_]`. -/
def isWordChar (c : Char) : Bool :=
  (48 ≤ c.toNat && c.toNat ≤ 57) || (65 ≤ c.toNat && c.toNat ≤ 90) ||
  (97 ≤ c.toNat && c.toNat ≤ 122) || c == '_'

/-- Length of the maximal prefix of `l` whose characters satisfy `p`
(the greedy `*`/`+` of a regex character class). -/
def runLength (p : Char → Bool) : List Char → Nat
  | [] => 0
  | c :: cs => if p c then runLength p cs + 1 else 0

/-- Attempt to match the first alternative `-?\d*\.\d\w*` of
`WORD_DEFINITION` at position `i`; returns the end position of the match.
The greedy `\d*` cannot backtrack productively (a shorter digit run leaves
a digit where the literal `.` is required), and when the optional leading
`-` is consumed and the tail fails, retrying without it also fails (the
literal `.` would have to match the `-`), so the match is deterministic. -/
def matchNumberAt (t : List Char) (i : Nat) : Option Nat :=
  let j := if t[i]? == some '-' then i + 1 else i
  let k := j + runLength isDigitChar (t.drop j)
  match t[k]?, t[k + 1]? with
  | some c, some d =>
    if c == '.' && isDigitChar d then
      some (k + 2 + runLength isWordChar (t.drop (k + 2)))
    else none
  | _, _ => none

/-- Attempt to match the second alternative `[^...]+` of `WORD_DEFINITION`
at position `i` (maximal run of non-separator characters). -/
def matchWordRunAt (t : List Char) (i : Nat) : Option Nat :=
  match t[i]? with
  | some c =>
    if isWordSeparatorChar c then none
    else some (i + runLength (fun x => ! isWordSeparatorChar x) (t.drop i))
  | none => none

/-- Match `WORD_DEFINITION` anchored at position `i`: the regex engine
tries the first alternative before the second at every position.  The two
alternatives can never both match at the same position (the first consumes
a `-`, a digit or a `.` first, all of which are in the separator class the
second excludes), so the order only reproduces the engine faithfully. -/
def matchWordDefAt (t : List Char) (i : Nat) : Option Nat :=
  match matchNumberAt t i with
  | some e => some e
  | none => matchWordRunAt t i

/-- `WORD_DEFINITION.exec(text)` with `lastIndex = i`: the leftmost match
at a position `≥ i`, returned as `(match.index, lastIndex after)`.
A global-flag exec bumps along position by position, so the first position
at which either alternative matches wins. -/
def findMatchFrom (t : List Char) (i : Nat) : Option (Nat × Nat) :=
  match (List.range (t.length + 1 - i)).find? (fun d => (matchWordDefAt t (i + d)).isSome) with
  | none => none
  | some d =>
    match matchWordDefAt t (i + d) with
    | some e => some (i + d, e)
    | none => none

/-- The `while (match = WORD_DEFINITION.exec(text))` loop of
`extractWord`: keeps the index of the most recent match whose index is
`≤ offset` and whose end is `> offset`, stops at the first match whose
index exceeds `offset` or when no match is left.  Every iteration
advances `lastIndex` past a nonempty match (`findMatchFrom_bounds`
below), so positions strictly increase and stay `≤ t.length`; a fuel of
`t.length + 1` therefore always suffices and the fuel-exhausted branch is
unreachable from `extractWord`. -/
def scanLeft (t : List Char) (offset : Nat) : Nat → Nat → Option Nat → Option Nat
  | 0, _, acc => acc
  | fuel + 1, pos, acc =>
    match findMatchFrom t pos with
    | none => acc
    | some (idx, stop) =>
      if idx ≤ offset then
        scanLeft t offset fuel stop (if offset < stop then some idx else acc)
      else acc

/-- `WORD_SEPARATORS.exec(text)` with `lastIndex = i`: index of the first
separator character at a position `≥ i`. -/
def findSepFrom (t : List Char) (i : Nat) : Option Nat :=
  match (t.drop i).findIdx? isWordSeparatorChar with
  | some d => some (i + d)
  | none => none

/-- `offset < 0` is clamped to `0` (vacuous for `Nat`) and
`offset >= text.length` is clamped to `text.length - 1`. -/
def clampOffset (len o : Nat) : Nat :=
  if len ≤ o then len - 1 else o

/-- `text.lastIndexOf(' ', p)`: the largest index `i ≤ p` with
`text[i] = ' '`.  ECMAScript clamps the position into `[0, length]`, so
the JavaScript call with position `offset - 1 = -1` (offset 0) behaves
like position `0`, which `Nat` subtraction reproduces. -/
def lastSpaceLE (t : List Char) (p : Nat) : Option Nat :=
  (List.range (p + 1)).reverse.find? (fun i => t[i]? == some ' ')

/-- `WORD_DEFINITION.lastIndex = text.lastIndexOf(' ', offset - 1) + 1`. -/
def scanStartOf (t : List Char) (off : Nat) : Nat :=
  match lastSpaceLE t (off - 1) with
  | some i => i + 1
  | none => 0

/-- The result record `{ left, right, word }` of `extractWord`. -/
structure WordInfo where
  left : Nat
  right : Nat
  word : List Char
deriving DecidableEq, Repr

/-- `SpellChecker.extractWord(text, offset)`: `null` on empty text,
otherwise the enclosing-word search described above.  The left boundary is
the index of the last `WORD_DEFINITION` match containing the (clamped)
offset, searched from just after the last literal space before the
offset; the right boundary is the first `WORD_SEPARATORS` match at or
after the offset, or `text.length` if none (last word in string). -/
def extractWord (text : List Char) (offset : Nat) : Option WordInfo :=
  if text.length = 0 then none
  else
    match scanLeft text (clampOffset text.length offset) (text.length + 1)
        (scanStartOf text (clampOffset text.length offset)) none with
    | none => none
    | some left =>
      match findSepFrom text (clampOffset text.length offset) with
      | none => some { left := left, right := text.length, word := text.drop left }
      | some right => some { left := left, right := right, word := (text.drop left).take (right - left) }

/-- The owning block of a line: its text buffer plus the two tags that
the selection validator inspects. -/
structure Block where
  text : List Char
  functionType : Option String
  lang : Option String
deriving DecidableEq, Repr

/-- A cursor position `{ key, offset, block? }`; `block` is the optional
non-owning reference to the owning block that some positions carry. -/
structure Position where
  key : String
  offset : Nat
  block : Option Block
deriving DecidableEq, Repr

/-- A `{ start, end }` cursor pair (line cursor or word cursor). -/
structure Cursor where
  start : Position
  «end» : Position
deriving DecidableEq, Repr

/-- An entry of a selection's `affiliation` array; only its `type` tag is
inspected. -/
structure Affiliation where
  type : Option String
deriving DecidableEq, Repr

/-- The duck-typed selection object passed to `validateLineCursor`:
`start`/`end` may be missing, and the `affiliation` array may be absent. -/
structure Selection where
  start : Option Position
  «end» : Option Position
  affiliation : Option (List Affiliation)
deriving DecidableEq, Repr

/-- `offsetToWordCursor(lineCursor, left, right)`: deep-clones the two
positions and overwrites their offsets.  Values are immutable here, so the
deep clone is the value itself. -/
def offsetToWordCursor (lineCursor : Cursor) (left right : Nat) : Cursor :=
  { start := { lineCursor.start with offset := left },
    «end» := { lineCursor.«end» with offset := right } }

/-- `validateLineCursor(selection)`.  The result `none` models a thrown
`TypeError`.  The first guard of the source reads

  if (!selection && !selection.start && ... ) return false

with `&&`: when `selection` is null/undefined, `!selection` is truthy and
the very next conjunct dereferences `selection.start` — a `TypeError`;
when `selection` is present the first conjunct is falsy and the guard is
skipped entirely (the `hasOwnProperty('offset')` conjuncts are dead
code), after which a missing `start`/`end` position makes
`startCursor.key`/`endCursor.key` throw. -/
def validateLineCursor (selection : Option Selection) : Option Bool :=
  match selection with
  | none => none
  | some sel =>
    match sel.start with
    | none => none
    | some startCursor =>
      match sel.«end» with
      | none => none
      | some endCursor =>
        if startCursor.key ≠ endCursor.key then some false
        else match startCursor.block with
          | none => some false
          | some block =>
            if block.functionType = some "codeContent" ∧ block.lang ≠ none then some false
            else match sel.affiliation with
              | none => some true
              | some affs =>
                match affs with
                | [a] => if a.type = some "pre" then some false else some true
                | _ => some true

def msgSingleWordCursor : String :=
  "Expect a single line word cursor: \"start.key\" is not equal to \"end.key\"."

def msgSingleLineCursor : String :=
  "Expect a single line line cursor: \"start.key\" is not equal to \"end.key\"."

def msgInvalidOffset (a b : Nat) : String :=
  "Invalid word cursor offset: " ++ toString a ++ " should be less " ++ toString b ++ "."

def msgCursorMismatch (a b : String) : String :=
  "Cursor mismatch: Expect the same line but got " ++ a ++ " and " ++ b ++ "."

def msgReplacementTooLong : String :=
  "Invalid cursor: Replacement length is larger than line length."

/-- A JavaScript `TypeError` from dereferencing `undefined`. -/
def msgTypeError : String := "TypeError"

/-- The observable outcome of a successful `replaceWordInline`: the text
written back to the owning block, the line cursor after the optional
caret update, the document cursor (`this.cursor`) after the optional
caret update (`none` = untouched), and the three notifications that fire
after every successful splice. -/
structure ReplaceResult where
  newText : List Char
  line : Cursor
  cursor : Option Cursor
  partialRender : Bool
  dispatchSelectionChange : Bool
  dispatchChange : Bool
deriving DecidableEq, Repr

/-- `ContentState.prototype.replaceWordInline(line, wordCursor,
replacement, setCursor)`.  The five validation checks run, in source
order, before any mutation; a failing check throws (here:
`Except.error`), so an error result carries no new text, no cursor update
and no notifications.  On success the splice
`text.substr(0, left) + replacement + text.substr(right)` is performed,
the caret is optionally collapsed to `left + replacement.length` (a copy
of `wordCursor.start` with the new offset, installed as the line's start
and end and as the document cursor), and the re-render / selection /
content notifications fire. -/
def replaceWordInline (line wordCursor : Cursor) (replacement : List Char)
    (setCursor : Bool) : Except String ReplaceResult :=
  if wordCursor.start.key ≠ wordCursor.«end».key then
    Except.error msgSingleWordCursor
  else if line.start.key ≠ line.«end».key then
    Except.error msgSingleLineCursor
  else if wordCursor.start.offset > wordCursor.«end».offset then
    Except.error (msgInvalidOffset wordCursor.start.offset wordCursor.«end».offset)
  else if line.start.key ≠ wordCursor.«end».key then
    Except.error (msgCursorMismatch line.start.key wordCursor.«end».key)
  else
    match line.start.block with
    | none => Except.error msgTypeError
    | some block =>
      if block.text.length < wordCursor.«end».offset then
        Except.error msgReplacementTooLong
      else
        let left := wordCursor.start.offset
        let right := wordCursor.«end».offset
        let newText := block.text.take left ++ replacement ++ block.text.drop right
        if setCursor then
          let cursor : Position := { wordCursor.start with offset := left + replacement.length }
          Except.ok
            { newText := newText
              line := { start := cursor, «end» := cursor }
              cursor := some { start := cursor, «end» := cursor }
              partialRender := true
              dispatchSelectionChange := true
              dispatchChange := true }
        else
          Except.ok
            { newText := newText
              line := line
              cursor := none
              partialRender := true
              dispatchSelectionChange := true
              dispatchChange := true }

/-- The document state an orchestration call reads: the active cursor
`this.cursor` and the block lookup `this.getBlock`. -/
structure ContentState where
  cursor : Cursor
  blocks : String → Option Block

/-- `ContentState.prototype._replaceCurrentWordInlineUnsafe(word,
replacement)`.  `selStart`/`selEnd` are the live selection returned by
`selection.getCursorRange()`.  The owning block is attached to the start
position (`cursor.start.block = this.getBlock(start.key)`, written out
inline below wherever the source reads `cursor.start`), the selection is
validated (soft failure: `ok (false, none)`), the word under the caret is
extracted from the block's text at the start offset and compared against
`word` (soft failures again), and only then is the word range — anchored
to `this.cursor` via `offsetToWordCursor` — replaced with
`setCursor = true`.  A thrown error from `replaceWordInline`
propagates. -/
def _replaceCurrentWordInlineUnsafe (st : ContentState) (selStart selEnd : Position)
    (word replacement : List Char) : Except String (Bool × Option ReplaceResult) :=
  match validateLineCursor (some
      { start := some { selStart with block := st.blocks selStart.key }
        «end» := some selEnd
        affiliation := none }) with
  | none => Except.error msgTypeError
  | some false => Except.ok (false, none)
  | some true =>
    match st.blocks selStart.key with
    | none => Except.error msgTypeError
    | some block =>
      match extractWord block.text selStart.offset with
      | none => Except.ok (false, none)
      | some wordInfo =>
        if wordInfo.word ≠ word then Except.ok (false, none)
        else
          match replaceWordInline
              { start := { selStart with block := st.blocks selStart.key }, «end» := selEnd }
              (offsetToWordCursor st.cursor wordInfo.left wordInfo.right)
              replacement true with
          | Except.error e => Except.error e
          | Except.ok res => Except.ok (true, some res)

/-! Concrete inputs used by the witnesses below. -/

def blockAbc : Block := { text := "abc def".toList, functionType := none, lang := none }

def lineAbc : Cursor :=
  { start := { key := "L1", offset := 0, block := some blockAbc },
    «end» := { key := "L1", offset := 7, block := none } }

def wcAbc : Cursor :=
  { start := { key := "L1", offset := 4, block := none },
    «end» := { key := "L1", offset := 7, block := none } }

def wcBad : Cursor :=
  { start := { key := "L1", offset := 5, block := none },
    «end» := { key := "L1", offset := 2, block := none } }

def selCross : Selection :=
  { start := some { key := "a", offset := 0, block := none },
    «end» := some { key := "b", offset := 0, block := none },
    affiliation := none }

def blockTeh : Block := { text := "teh x".toList, functionType := none, lang := none }

def stMismatch : ContentState :=
  { cursor := { start := { key := "L1", offset := 0, block := none },
                «end» := { key := "L1", offset := 0, block := none } },
    blocks := fun k => if k = "L1" then some blockTeh else none }

def posL1 : Position := { key := "L1", offset := 1, block := none }

def blockTeh3 : Block := { text := "teh".toList, functionType := none, lang := none }

def stAnchor : ContentState :=
  { cursor := { start := { key := "L2", offset := 0, block := none },
                «end» := { key := "L2", offset := 0, block := none } },
    blocks := fun k => if k = "L1" then some blockTeh3 else none }

def posAnchor : Position := { key := "L1", offset := 0, block := none }

/-! Helper lemmas about the scanner. -/

theorem runLength_le (p : Char → Bool) : ∀ l : List Char, runLength p l ≤ l.length := by
  intro l
  induction l with
  | nil => simp [runLength]
  | cons c cs ih =>
    simp only [runLength, List.length_cons]
    split
    · omega
    · omega

theorem getElem?_lt_length : ∀ (t : List Char) (i : Nat) (c : Char), t[i]? = some c → i < t.length := by
  intro t
  induction t with
  | nil => intro i c h; simp at h
  | cons a l ih =>
    intro i c h
    cases i with
    | zero => simp
    | succ n =>
      have := ih n c (by simpa using h)
      simpa using Nat.succ_lt_succ this

theorem drop_eq_cons_of_getElem? : ∀ (t : List Char) (i : Nat) (c : Char), t[i]? = some c → t.drop i = c :: t.drop (i + 1) := by
  intro t
  induction t with
  | nil => intro i c h; simp at h
  | cons a l ih =>
    intro i c h
    cases i with
    | zero =>
      simp at h
      simp [h]
    | succ n =>
      have := ih n c (by simpa using h)
      simpa using this

theorem matchNumberAt_bounds (t : List Char) (i e : Nat)
    (h : matchNumberAt t i = some e) : i < e ∧ e ≤ t.length := by
  simp only [matchNumberAt] at h
  set j := if t[i]? == some '-' then i + 1 else i with hj
  set k := j + runLength isDigitChar (t.drop j) with hk
  have hji : i ≤ j := by rw [hj]; split <;> omega
  have hjk : j ≤ k := by omega
  cases h1 : t[k]? with
  | none => rw [h1] at h; simp at h
  | some c =>
    cases h2 : t[k + 1]? with
    | none => rw [h1, h2] at h; simp at h
    | some d =>
      rw [h1, h2] at h
      dsimp only at h
      by_cases hc : (c == '.' && isDigitChar d) = true
      · rw [if_pos hc] at h
        have hklen : k + 1 < t.length := getElem?_lt_length t (k + 1) d h2
        have hrun : runLength isWordChar (t.drop (k + 2)) ≤ (t.drop (k + 2)).length :=
          runLength_le _ _
        rw [List.length_drop] at hrun
        have he : e = k + 2 + runLength isWordChar (t.drop (k + 2)) := by
          injection h with h; omega
        omega
      · rw [if_neg hc] at h; simp at h

theorem matchWordRunAt_bounds (t : List Char) (i e : Nat)
    (h : matchWordRunAt t i = some e) : i < e ∧ e ≤ t.length := by
  simp only [matchWordRunAt] at h
  cases h1 : t[i]? with
  | none => rw [h1] at h; simp at h
  | some c =>
    rw [h1] at h
    dsimp only at h
    by_cases hc : isWordSeparatorChar c = true
    · rw [if_pos hc] at h; simp at h
    · rw [if_neg hc] at h
      have hlen : i < t.length := getElem?_lt_length t i c h1
      have hdrop : t.drop i = c :: t.drop (i + 1) := drop_eq_cons_of_getElem? t i c h1
      have hrun : runLength (fun x => ! isWordSeparatorChar x) (t.drop i) ≤ (t.drop i).length :=
        runLength_le _ _
      rw [List.length_drop] at hrun
      have hpos : 1 ≤ runLength (fun x => ! isWordSeparatorChar x) (t.drop i) := by
        rw [hdrop]
        simp only [runLength]
        rw [if_pos (by simp [hc])]
        omega
      have he : e = i + runLength (fun x => ! isWordSeparatorChar x) (t.drop i) := by
        injection h with h; omega
      omega

theorem matchWordDefAt_bounds (t : List Char) (i e : Nat)
    (h : matchWordDefAt t i = some e) : i < e ∧ e ≤ t.length := by
  simp only [matchWordDefAt] at h
  cases h1 : matchNumberAt t i with
  | some e1 =>
    rw [h1] at h
    injection h with h
    exact h ▸ matchNumberAt_bounds t i e1 h1
  | none =>
    rw [h1] at h
    exact matchWordRunAt_bounds t i e h

theorem findMatchFrom_bounds (t : List Char) (i idx e : Nat)
    (h : findMatchFrom t i = some (idx, e)) : i ≤ idx ∧ idx < e ∧ e ≤ t.length := by
  simp only [findMatchFrom] at h
  cases h1 : (List.range (t.length + 1 - i)).find? (fun d => (matchWordDefAt t (i + d)).isSome) with
  | none => rw [h1] at h; simp at h
  | some d =>
    rw [h1] at h
    dsimp only at h
    cases h2 : matchWordDefAt t (i + d) with
    | none => rw [h2] at h; simp at h
    | some e1 =>
      rw [h2] at h
      injection h with h
      injection h with ha hb
      have := matchWordDefAt_bounds t (i + d) e1 h2
      omega

theorem scanLeft_le (t : List Char) (offset : Nat) :
    ∀ (fuel pos : Nat) (acc : Option Nat),
      (∀ y, acc = some y → y ≤ offset) →
      ∀ x, scanLeft t offset fuel pos acc = some x → x ≤ offset := by
  intro fuel
  induction fuel with
  | zero =>
    intro pos acc hacc x hx
    simp only [scanLeft] at hx
    exact hacc x hx
  | succ n ih =>
    intro pos acc hacc x hx
    simp only [scanLeft] at hx
    cases hfm : findMatchFrom t pos with
    | none => rw [hfm] at hx; exact hacc x hx
    | some pr =>
      obtain ⟨idx, stop⟩ := pr
      rw [hfm] at hx
      dsimp only at hx
      by_cases hidx : idx ≤ offset
      · rw [if_pos hidx] at hx
        refine ih stop _ ?_ x hx
        intro y hy
        by_cases hstop : offset < stop
        · rw [if_pos hstop] at hy
          injection hy with hy
          omega
        · rw [if_neg hstop] at hy
          exact hacc y hy
      · rw [if_neg hidx] at hx
        exact hacc x hx

theorem findSepFrom_ge (t : List Char) (i r : Nat)
    (h : findSepFrom t i = some r) : i ≤ r := by
  simp only [findSepFrom] at h
  cases h1 : (t.drop i).findIdx? isWordSeparatorChar with
  | none => rw [h1] at h; simp at h
  | some d =>
    rw [h1] at h
    injection h with h
    omega

theorem clampOffset_lt (len o : Nat) (h : len ≠ 0) : clampOffset len o < len := by
  unfold clampOffset
  split <;> omega

/-- Shared span lemma for `extractWord`: a non-null result has
`left ≤ right` and carries the slice `text[left..right]` as its word. -/
theorem extractWord_span_aux (t : List Char) (o : Nat) (wi : WordInfo)
    (h : extractWord t o = some wi) :
    wi.left ≤ wi.right ∧ wi.word = (t.drop wi.left).take (wi.right - wi.left) := by
  unfold extractWord at h
  by_cases hlen : t.length = 0
  · rw [if_pos hlen] at h; simp at h
  · rw [if_neg hlen] at h
    cases hsl : scanLeft t (clampOffset t.length o) (t.length + 1)
        (scanStartOf t (clampOffset t.length o)) none with
    | none => rw [hsl] at h; simp at h
    | some left =>
      rw [hsl] at h
      dsimp only at h
      have hle : left ≤ clampOffset t.length o :=
        scanLeft_le t (clampOffset t.length o) (t.length + 1)
          (scanStartOf t (clampOffset t.length o)) none (by intro y hy; cases hy) left hsl
      have hclt : clampOffset t.length o < t.length := clampOffset_lt t.length o hlen
      cases hsep : findSepFrom t (clampOffset t.length o) with
      | none =>
        rw [hsep] at h
        dsimp only at h
        injection h with h
        subst h
        refine ⟨by dsimp only; omega, ?_⟩
        dsimp only
        have hdl : (t.drop left).length = t.length - left := List.length_drop _ _
        rw [← hdl, List.take_length]
      | some right =>
        rw [hsep] at h
        dsimp only at h
        injection h with h
        subst h
        have hge : clampOffset t.length o ≤ right := findSepFrom_ge t _ right hsep
        exact ⟨by dsimp only; omega, rfl⟩

/-- Removing the slice `[l, r)` and putting it back is the identity. -/
theorem splice_self (xs : List Char) (l r : Nat) (hlr : l ≤ r) :
    xs.take l ++ (xs.drop l).take (r - l) ++ xs.drop r = xs := by
  have hdd : (xs.drop l).drop (r - l) = xs.drop r := by
    rw [List.drop_drop]
    congr 1
    omega
  calc xs.take l ++ (xs.drop l).take (r - l) ++ xs.drop r
      = xs.take l ++ ((xs.drop l).take (r - l) ++ (xs.drop l).drop (r - l)) := by
        rw [hdd, List.append_assoc]
    _ = xs.take l ++ xs.drop l := by rw [List.take_append_drop]
    _ = xs := List.take_append_drop l xs

/-- Success of `replaceWordInline` with `setCursor = true`: the exact
result record. -/
theorem replaceWordInline_ok_true (line wc : Cursor) (repl : List Char) (b : Block)
    (h1 : wc.start.key = wc.«end».key) (h2 : line.start.key = line.«end».key)
    (h3 : wc.start.offset ≤ wc.«end».offset) (h4 : line.start.key = wc.«end».key)
    (hb : line.start.block = some b) (h5 : wc.«end».offset ≤ b.text.length) :
    replaceWordInline line wc repl true = Except.ok
      { newText := b.text.take wc.start.offset ++ repl ++ b.text.drop wc.«end».offset
        line := { start := { wc.start with offset := wc.start.offset + repl.length }
                  «end» := { wc.start with offset := wc.start.offset + repl.length } }
        cursor := some { start := { wc.start with offset := wc.start.offset + repl.length }
                         «end» := { wc.start with offset := wc.start.offset + repl.length } }
        partialRender := true
        dispatchSelectionChange := true
        dispatchChange := true } := by
  unfold replaceWordInline
  rw [if_neg (not_not.mpr h1), if_neg (not_not.mpr h2),
    if_neg (by omega : ¬ wc.start.offset > wc.«end».offset),
    if_neg (not_not.mpr h4), hb]
  dsimp only
  rw [if_neg (by omega : ¬ b.text.length < wc.«end».offset)]
  rfl

/-- Success of `replaceWordInline` with `setCursor = false`: the exact
result record (cursors untouched). -/
theorem replaceWordInline_ok_false (line wc : Cursor) (repl : List Char) (b : Block)
    (h1 : wc.start.key = wc.«end».key) (h2 : line.start.key = line.«end».key)
    (h3 : wc.start.offset ≤ wc.«end».offset) (h4 : line.start.key = wc.«end».key)
    (hb : line.start.block = some b) (h5 : wc.«end».offset ≤ b.text.length) :
    replaceWordInline line wc repl false = Except.ok
      { newText := b.text.take wc.start.offset ++ repl ++ b.text.drop wc.«end».offset
        line := line
        cursor := none
        partialRender := true
        dispatchSelectionChange := true
        dispatchChange := true } := by
  unfold replaceWordInline
  rw [if_neg (not_not.mpr h1), if_neg (not_not.mpr h2),
    if_neg (by omega : ¬ wc.start.offset > wc.«end».offset),
    if_neg (not_not.mpr h4), hb]
  dsimp only
  rw [if_neg (by omega : ¬ b.text.length < wc.«end».offset)]
  rfl

/-- Inversion: a successful `replaceWordInline` call satisfied all five
preconditions. -/
theorem replaceWordInline_ok_inv (line wc : Cursor) (repl : List Char) (sc : Bool)
    (res : ReplaceResult) (h : replaceWordInline line wc repl sc = Except.ok res) :
    wc.start.key = wc.«end».key ∧ line.start.key = line.«end».key ∧
    wc.start.offset ≤ wc.«end».offset ∧ line.start.key = wc.«end».key ∧
    ∃ b, line.start.block = some b ∧ wc.«end».offset ≤ b.text.length := by
  unfold replaceWordInline at h
  by_cases h1 : wc.start.key ≠ wc.«end».key
  · rw [if_pos h1] at h; exact absurd h (by simp)
  · rw [if_neg h1] at h
    by_cases h2 : line.start.key ≠ line.«end».key
    · rw [if_pos h2] at h; exact absurd h (by simp)
    · rw [if_neg h2] at h
      by_cases h3 : wc.start.offset > wc.«end».offset
      · rw [if_pos h3] at h; exact absurd h (by simp)
      · rw [if_neg h3] at h
        by_cases h4 : line.start.key ≠ wc.«end».key
        · rw [if_pos h4] at h; exact absurd h (by simp)
        · rw [if_neg h4] at h
          cases hb : line.start.block with
          | none => rw [hb] at h; exact absurd h (by simp)
          | some b =>
            rw [hb] at h
            dsimp only at h
            by_cases h5 : b.text.length < wc.«end».offset
            · rw [if_pos h5] at h; exact absurd h (by simp)
            · exact ⟨not_not.mp h1, not_not.mp h2, by omega, not_not.mp h4, b, rfl, by omega⟩

/-- Reduction of `validateLineCursor` on a selection whose `start` and
`end` positions are present. -/
theorem validateLineCursor_eq (sc ec : Position) (aff : Option (List Affiliation)) :
    validateLineCursor (some { start := some sc, «end» := some ec, affiliation := aff }) =
      (if sc.key ≠ ec.key then some false
       else match sc.block with
         | none => some false
         | some block =>
           if block.functionType = some "codeContent" ∧ block.lang ≠ none then some false
           else match aff with
             | none => some true
             | some affs =>
               match affs with
               | [a] => if a.type = some "pre" then some false else some true
               | _ => some true) := rfl

/-! The claims. -/

/-- C1: for every line cursor, word cursor and replacement satisfying the
five preconditions of `replaceWordInline` (same keys on the word cursor,
same keys on the line cursor, `start.offset ≤ end.offset`, word cursor
anchored to the line, `end.offset ≤` block text length), the call
succeeds and sets the owning block's text to
`text[0..left] ++ replacement ++ text[right..]` with
`left = wordCursor.start.offset`, `right = wordCursor.end.offset`; when
`setCursor` is true, the line's start and end cursors and the document's
active cursor all become the same collapsed position with offset
`left + replacement.length`. -/
theorem replaceWordInline_splice_and_caret (line wc : Cursor) (repl : List Char)
    (sc : Bool) (b : Block)
    (h1 : wc.start.key = wc.«end».key) (h2 : line.start.key = line.«end».key)
    (h3 : wc.start.offset ≤ wc.«end».offset) (h4 : line.start.key = wc.«end».key)
    (hb : line.start.block = some b) (h5 : wc.«end».offset ≤ b.text.length) :
    ∃ res, replaceWordInline line wc repl sc = Except.ok res ∧
      res.newText = b.text.take wc.start.offset ++ repl ++ b.text.drop wc.«end».offset ∧
      (sc = true →
        res.line = { start := { wc.start with offset := wc.start.offset + repl.length }
                     «end» := { wc.start with offset := wc.start.offset + repl.length } } ∧
        res.cursor = some
          { start := { wc.start with offset := wc.start.offset + repl.length }
            «end» := { wc.start with offset := wc.start.offset + repl.length } }) := by
  cases sc with
  | true =>
    exact ⟨_, replaceWordInline_ok_true line wc repl b h1 h2 h3 h4 hb h5, rfl,
      fun _ => ⟨rfl, rfl⟩⟩
  | false =>
    exact ⟨_, replaceWordInline_ok_false line wc repl b h1 h2 h3 h4 hb h5, rfl,
      fun hc => absurd hc Bool.false_ne_true⟩

/-- C1 witness: on buffer `"abc def"` with word range `(4, 7)` and
replacement `"xyz"` the result text is `"abc xyz"` and the collapsed
caret sits at offset `4 + 3 = 7`. -/
theorem replaceWordInline_splice_and_caret_witness :
    ∃ res, replaceWordInline lineAbc wcAbc ("xyz".toList) true = Except.ok res ∧
      res.newText = "abc xyz".toList ∧
      (true = true →
        res.line = { start := { key := "L1", offset := 7, block := none }
                     «end» := { key := "L1", offset := 7, block := none } } ∧
        res.cursor = some
          { start := { key := "L1", offset := 7, block := none }
            «end» := { key := "L1", offset := 7, block := none } }) := by
  obtain ⟨res, hok, htext, hcur⟩ :=
    replaceWordInline_splice_and_caret lineAbc wcAbc ("xyz".toList) true blockAbc
      rfl rfl (by decide) rfl rfl (by decide)
  exact ⟨res, hok, by rw [htext]; rfl, hcur⟩

/-- C2: every input violating one of the five preconditions of
`replaceWordInline` makes the call fail with an error; in this embedding
an error result carries no new text, no cursor update and no
notification, mirroring that the source throws before the splice and
before the three dispatch calls. -/
theorem replaceWordInline_violation_errors (line wc : Cursor) (repl : List Char) (sc : Bool)
    (h : wc.start.key ≠ wc.«end».key ∨ line.start.key ≠ line.«end».key ∨
      wc.start.offset > wc.«end».offset ∨ line.start.key ≠ wc.«end».key ∨
      (∃ b, line.start.block = some b ∧ b.text.length < wc.«end».offset)) :
    ∃ e, replaceWordInline line wc repl sc = Except.error e := by
  cases hres : replaceWordInline line wc repl sc with
  | error e => exact ⟨e, rfl⟩
  | ok res =>
    obtain ⟨e1, e2, e3, e4, b, hb, e5⟩ := replaceWordInline_ok_inv line wc repl sc res hres
    rcases h with h | h | h | h | ⟨b2, hb2, h5⟩
    · exact absurd e1 h
    · exact absurd e2 h
    · omega
    · exact absurd e4 h
    · rw [hb] at hb2
      injection hb2 with hb2
      subst hb2
      omega

/-- C2 witness: inverted offsets `left = 5 > right = 2` are rejected. -/
theorem replaceWordInline_violation_errors_witness :
    wcBad.start.offset > wcBad.«end».offset ∧
    (∃ e, replaceWordInline lineAbc wcBad ("x".toList) false = Except.error e) :=
  ⟨by decide, replaceWordInline_violation_errors lineAbc wcBad ("x".toList) false
    (Or.inr (Or.inr (Or.inl (by decide))))⟩

/-- C3 counterexample: on text `"-3.5"` at offset `0` the code returns a
word span with `left = right = 0` and an empty word — the claim's
"word is non-empty" fails.  The `WORD_DEFINITION` match `-3.5` starts at
the leading `-`, which is itself a separator, so the forward separator
scan stops at offset 0. -/
theorem extractWord_empty_word_cex :
    extractWord ("-3.5".toList) 0 = some { left := 0, right := 0, word := [] } := by
  decide

/-- C3 (amended): whenever `extractWord` returns a span
`{left, right, word}`, `left ≤ right` and `word = text[left..right]`
hold, but the word may be empty (for example on `"-3.5"` at offset 0). -/
theorem extractWord_span (t : List Char) (o : Nat) (wi : WordInfo)
    (h : extractWord t o = some wi) :
    wi.left ≤ wi.right ∧ wi.word = (t.drop wi.left).take (wi.right - wi.left) :=
  extractWord_span_aux t o wi h

/-- C3 witness: on `"hello"` at offset 2 the span is `(0, 5, "hello")`
and the span property holds there. -/
theorem extractWord_span_witness :
    extractWord ("hello".toList) 2 = some { left := 0, right := 5, word := "hello".toList } ∧
    ((0 : Nat) ≤ 5 ∧ "hello".toList = (("hello".toList).drop 0).take (5 - 0)) :=
  ⟨by decide, extractWord_span ("hello".toList) 2
    { left := 0, right := 5, word := "hello".toList } (by decide)⟩

/-- C4: evaluation of the code at the claimed input.  The claim (and the
spec) say `extractWord("price 3.14 end", 8)` is `{6, 10, "3.14"}`, but
the code returns `{6, 8, "3."}`: the unescaped `-` of the separator class
forms the range `)`..`=`, which contains the digits, so the digit `1` at
index 8 is treated as a separator and ends the word.  The source's own
comment cites the vscode original with the dash escaped, so the claim
matches the documented intent and the code deviates from it. -/
theorem extractWord_decimal_split_eval :
    extractWord ("price 3.14 end".toList) 8 = some { left := 6, right := 8, word := "3.".toList } := by
  decide

/-- C5: evaluation of the code at the failing input.  The claim says an
absent selection yields `false`; because the presence guard chains its
conjuncts with `&&` instead of `||`, a null selection makes the guard
dereference `selection.start` and throw a `TypeError` (modelled as
`none`) instead of returning `some false`. -/
theorem validateLineCursor_null_throws_eval : validateLineCursor none = none := rfl

/-- C6: `validateLineCursor` returns `false` for every present selection
whose `start.key` differs from `end.key` or whose start position has no
block, and for every selection anchored to a block with
`functionType = "codeContent"` and a defined `lang`. -/
theorem validateLineCursor_rejects (s : Selection) (sc ec : Position)
    (hs : s.start = some sc) (he : s.«end» = some ec) :
    ((sc.key ≠ ec.key ∨ sc.block = none) → validateLineCursor (some s) = some false) ∧
    (∀ b : Block, sc.block = some b → b.functionType = some "codeContent" →
      b.lang ≠ none → validateLineCursor (some s) = some false) := by
  obtain ⟨os, oe, aff⟩ := s
  dsimp only at hs he
  subst hs
  subst he
  constructor
  · rintro (hk | hblk)
    · rw [validateLineCursor_eq, if_pos hk]
    · rw [validateLineCursor_eq]
      by_cases hk2 : sc.key ≠ ec.key
      · rw [if_pos hk2]
      · rw [if_neg hk2, hblk]
  · intro b hblk hft hlang
    rw [validateLineCursor_eq]
    by_cases hk2 : sc.key ≠ ec.key
    · rw [if_pos hk2]
    · rw [if_neg hk2, hblk]
      dsimp only
      rw [if_pos ⟨hft, hlang⟩]

/-- C6 witness: a selection spanning keys `"a"` and `"b"` is rejected. -/
theorem validateLineCursor_rejects_witness :
    validateLineCursor (some selCross) = some false :=
  (validateLineCursor_rejects selCross
    { key := "a", offset := 0, block := none }
    { key := "b", offset := 0, block := none } rfl rfl).1 (Or.inl (by decide))

/-- C7: whenever the word extracted from the current block's text differs
from the `word` argument, `_replaceCurrentWordInlineUnsafe` returns
`false` and performs no replacement (the result carries no
`ReplaceResult`, so no buffer text is produced). -/
theorem replaceCurrentWordUnsafe_mismatch (st : ContentState) (selStart selEnd : Position)
    (word repl : List Char) (b : Block) (wi : WordInfo)
    (hb : st.blocks selStart.key = some b)
    (hw : extractWord b.text selStart.offset = some wi)
    (hne : wi.word ≠ word) :
    _replaceCurrentWordInlineUnsafe st selStart selEnd word repl = Except.ok (false, none) := by
  unfold _replaceCurrentWordInlineUnsafe
  rw [validateLineCursor_eq]
  dsimp only
  rw [hb]
  by_cases hk : selStart.key ≠ selEnd.key
  · rw [if_pos hk]
  · rw [if_neg hk]
    dsimp only
    by_cases hcc : b.functionType = some "codeContent" ∧ b.lang ≠ none
    · rw [if_pos hcc]
    · rw [if_neg hcc]
      dsimp only
      rw [hw]
      dsimp only
      rw [if_pos hne]

/-- C7 witness: the live buffer holds `"teh x"` but the provider reports
the word `"the"`; the extracted word `"teh"` mismatches, so the call
returns `false` with no replacement. -/
theorem replaceCurrentWordUnsafe_mismatch_witness :
    stMismatch.blocks posL1.key = some blockTeh ∧
    extractWord blockTeh.text posL1.offset = some { left := 0, right := 3, word := "teh".toList } ∧
    _replaceCurrentWordInlineUnsafe stMismatch posL1 posL1 ("the".toList) ("the".toList) =
      Except.ok (false, none) :=
  ⟨by decide, by decide,
    replaceCurrentWordUnsafe_mismatch stMismatch posL1 posL1 ("the".toList) ("the".toList)
      blockTeh { left := 0, right := 3, word := "teh".toList } (by decide) (by decide) (by decide)⟩

/-- C8: replacing a word with itself is the identity on the buffer: with
`replacement = text[left..right]` the new text equals the old, and the
caret (with `setCursor = true`) is collapsed at
`left + replacement.length`. -/
theorem replaceWordInline_self_id (line wc : Cursor) (b : Block)
    (h1 : wc.start.key = wc.«end».key) (h2 : line.start.key = line.«end».key)
    (h3 : wc.start.offset ≤ wc.«end».offset) (h4 : line.start.key = wc.«end».key)
    (hb : line.start.block = some b) (h5 : wc.«end».offset ≤ b.text.length) :
    ∃ res, replaceWordInline line wc
        ((b.text.drop wc.start.offset).take (wc.«end».offset - wc.start.offset)) true =
        Except.ok res ∧
      res.newText = b.text ∧
      res.line =
        { start := { wc.start with offset := wc.start.offset +
            ((b.text.drop wc.start.offset).take (wc.«end».offset - wc.start.offset)).length }
          «end» := { wc.start with offset := wc.start.offset +
            ((b.text.drop wc.start.offset).take (wc.«end».offset - wc.start.offset)).length } } ∧
      res.cursor = some
        { start := { wc.start with offset := wc.start.offset +
            ((b.text.drop wc.start.offset).take (wc.«end».offset - wc.start.offset)).length }
          «end» := { wc.start with offset := wc.start.offset +
            ((b.text.drop wc.start.offset).take (wc.«end».offset - wc.start.offset)).length } } := by
  refine ⟨_, replaceWordInline_ok_true line wc _ b h1 h2 h3 h4 hb h5, ?_, rfl, rfl⟩
  exact splice_self b.text wc.start.offset wc.«end».offset h3

/-- C8 witness: replacing `"def"` by itself in `"abc def"` leaves the
buffer unchanged and collapses the caret at offset 7. -/
theorem replaceWordInline_self_id_witness :
    ∃ res, replaceWordInline lineAbc wcAbc ("def".toList) true = Except.ok res ∧
      res.newText = "abc def".toList ∧
      res.line = { start := { key := "L1", offset := 7, block := none }
                   «end» := { key := "L1", offset := 7, block := none } } ∧
      res.cursor = some
        { start := { key := "L1", offset := 7, block := none }
          «end» := { key := "L1", offset := 7, block := none } } :=
  replaceWordInline_self_id lineAbc wcAbc blockAbc rfl rfl (by decide) rfl rfl (by decide)

/-- C9: `extractWord("hello world", 9)` returns `{6, 11, "world"}`, an
instance of the last-word rule proved in general below: when the forward
separator scan finds no separator at or after the offset, the right
boundary is the text length and the word is the tail slice. -/
theorem extractWord_last_word (t : List Char) (o : Nat) (wi : WordInfo)
    (h : extractWord t o = some wi)
    (hsep : findSepFrom t (clampOffset t.length o) = none) :
    wi.right = t.length ∧ wi.word = t.drop wi.left := by
  unfold extractWord at h
  by_cases hlen : t.length = 0
  · rw [if_pos hlen] at h; simp at h
  · rw [if_neg hlen] at h
    cases hsl : scanLeft t (clampOffset t.length o) (t.length + 1)
        (scanStartOf t (clampOffset t.length o)) none with
    | none => rw [hsl] at h; simp at h
    | some left =>
      rw [hsl] at h
      dsimp only at h
      rw [hsep] at h
      dsimp only at h
      injection h with h
      subst h
      exact ⟨rfl, rfl⟩

/-- C9 witness: the claimed instance `extractWord("hello world", 9) =
{6, 11, "world"}`, with the last-word rule applied at it. -/
theorem extractWord_last_word_witness :
    extractWord ("hello world".toList) 9 =
      some { left := 6, right := 11, word := "world".toList } ∧
    ((11 : Nat) = ("hello world".toList).length ∧
      "world".toList = ("hello world".toList).drop 6) :=
  ⟨by decide, extractWord_last_word ("hello world".toList) 9
    { left := 6, right := 11, word := "world".toList } (by decide) (by decide)⟩

/-- C10 (implicit): the unsafe entry point anchors the translated word
cursor to `this.cursor`, not to the validated live selection; whenever
the live selection validates, a matching word is extracted, and
`this.cursor`'s (single) line key differs from the live selection's line
key, the call hits the hard `CursorMismatch` failure of
`replaceWordInline` instead of returning the soft `false`. -/
theorem replaceCurrentWordUnsafe_anchor_mismatch (st : ContentState)
    (selStart selEnd : Position) (word repl : List Char) (b : Block) (wi : WordInfo)
    (hkey : selStart.key = selEnd.key)
    (hb : st.blocks selStart.key = some b)
    (hcode : ¬(b.functionType = some "codeContent" ∧ b.lang ≠ none))
    (hw : extractWord b.text selStart.offset = some wi)
    (hww : wi.word = word)
    (hck : st.cursor.start.key = st.cursor.«end».key)
    (hne : st.cursor.«end».key ≠ selStart.key) :
    _replaceCurrentWordInlineUnsafe st selStart selEnd word repl =
      Except.error (msgCursorMismatch selStart.key st.cursor.«end».key) := by
  unfold _replaceCurrentWordInlineUnsafe
  rw [validateLineCursor_eq]
  dsimp only
  rw [hb]
  rw [if_neg (not_not.mpr hkey)]
  dsimp only
  rw [if_neg hcode]
  dsimp only
  rw [hw]
  dsimp only
  rw [if_neg (not_not.mpr hww)]
  have hle : wi.left ≤ wi.right := (extractWord_span_aux b.text selStart.offset wi hw).1
  have herr : replaceWordInline
      { start := { selStart with block := some b }, «end» := selEnd }
      (offsetToWordCursor st.cursor wi.left wi.right) repl true =
      Except.error (msgCursorMismatch selStart.key st.cursor.«end».key) := by
    unfold replaceWordInline offsetToWordCursor
    dsimp only
    rw [if_neg (not_not.mpr hck), if_neg (not_not.mpr hkey),
      if_neg (by omega : ¬ wi.left > wi.right), if_pos (Ne.symm hne)]
  rw [herr]

/-- C10 witness: live selection on line `"L1"` (text `"teh"`, word
matches), document cursor on line `"L2"`: the call throws the
`CursorMismatch` error naming `L1` and `L2`. -/
theorem replaceCurrentWordUnsafe_anchor_mismatch_witness :
    _replaceCurrentWordInlineUnsafe stAnchor posAnchor posAnchor ("teh".toList) ("the".toList) =
      Except.error (msgCursorMismatch "L1" "L2") :=
  replaceCurrentWordUnsafe_anchor_mismatch stAnchor posAnchor posAnchor
    ("teh".toList) ("the".toList) blockTeh3 { left := 0, right := 3, word := "teh".toList }
    rfl (by decide) (by decide) (by decide) rfl rfl (by decide)
